import Mathlib

/-!
Verification of the intel_powerstat MSR component
(`plugins/inputs/intel_powerstat/msr.go`).

The Go source is shallowly embedded: strings are `List Char`/`String`,
Go's `uint`/`uint64` are `Nat` (with explicit `% 2 ^ 64` where overflow
matters), `int`/`int64` are `Int` with explicit range checks where the
source checks them, fallible operations return `Except`/`Option`, and the
per-core map `cpuCoresData` is an association list.
-/

namespace IntelPowerstat

/-! ## Constants (msr.go lines 19-51) -/

def c3StateResidencyLocation : Int := 0x3FC

def c6StateResidencyLocation : Int := 0x3FD

def c7StateResidencyLocation : Int := 0x3FE

def maximumFrequencyClockCountLocation : Int := 0xE7

def actualFrequencyClockCountLocation : Int := 0xE8

def throttleTemperatureLocation : Int := 0x1A2

def temperatureLocation : Int := 0x19C

def timestampCounterLocation : Int := 0x10

/-- Maximum size of core IDs or socket IDs (`maxIDsSize = 1 << 13`). -/
def maxIDsSize : Nat := 1 <<< 13

/-! ## Character-level model of the Go string primitives used by `parseIDs`

`fmt.Sscanf(id, "%d-%d", &start, &end)` with `start, end : uint` and
`strconv.Atoi` are modelled at the character level, following the Go
`fmt`/`strconv` scanning rules on the fragments the source exercises:
`%d` into a `uint` skips leading white space, rejects a sign, consumes a
maximal run of decimal digits and fails on overflow past `2^64 - 1`;
a literal `-` in the format must match exactly; trailing unconsumed
input is not an error for `Sscanf`.  `strconv.Atoi` accepts an optional
sign followed by one or more digits spanning the whole string, failing
outside the 64-bit signed range. -/

/-- White space for Go's `strings.TrimSpace` / scanner space skipping
(ASCII fragment; the tokens of interest contain no exotic space). -/
def isSpaceGo (c : Char) : Bool :=
  c = ' ' || c = '\t' || c = '\n' || c = '\r' || c = '\x0b' || c = '\x0c'

/-- `strings.TrimSpace`. -/
def trimSpace (s : List Char) : List Char :=
  ((s.dropWhile isSpaceGo).reverse.dropWhile isSpaceGo).reverse

def skipSpaces (s : List Char) : List Char :=
  s.dropWhile isSpaceGo

def digitVal (c : Char) : Nat := c.toNat - '0'.toNat

def scanDigitsAux : List Char → Nat → Nat × List Char
  | [], acc => (acc, [])
  | c :: cs, acc =>
    if c.isDigit then scanDigitsAux cs (acc * 10 + digitVal c) else (acc, c :: cs)

/-- Consume a maximal non-empty run of decimal digits (`%d` token scan). -/
def scanDigits : List Char → Option (Nat × List Char)
  | [] => none
  | c :: cs => if c.isDigit then some (scanDigitsAux cs (digitVal c)) else none

/-- `fmt.Sscanf(id, "%d-%d", &start, &end)`; `some (start, end)` iff the
scan returns `n == 2 && err == nil`. -/
def sscanfRange (s : List Char) : Option (Nat × Nat) :=
  match scanDigits (skipSpaces s) with
  | none => none
  | some (a, rest) =>
    if a ≥ 2 ^ 64 then none
    else
      match rest with
      | '-' :: rest2 =>
        match scanDigits (skipSpaces rest2) with
        | none => none
        | some (b, _) => if b ≥ 2 ^ 64 then none else some (a, b)
      | _ => none

def allDigits (s : List Char) : Bool := s.all (·.isDigit)

def digitsVal (s : List Char) : Nat :=
  s.foldl (fun acc c => acc * 10 + digitVal c) 0

/-- `strconv.Atoi` (64-bit `int`). -/
def atoi (s : List Char) : Option Int :=
  match s with
  | [] => none
  | '+' :: rest =>
    if rest.isEmpty || !allDigits rest then none
    else if digitsVal rest ≤ 2 ^ 63 - 1 then some (Int.ofNat (digitsVal rest)) else none
  | '-' :: rest =>
    if rest.isEmpty || !allDigits rest then none
    else if digitsVal rest ≤ 2 ^ 63 then some (-Int.ofNat (digitsVal rest)) else none
  | _ =>
    if !allDigits s then none
    else if digitsVal s ≤ 2 ^ 63 - 1 then some (Int.ofNat (digitsVal s)) else none

/-- `strings.Split(idsString, ",")`. -/
def splitComma : List Char → List (List Char)
  | [] => [[]]
  | c :: rest =>
    if c = ',' then [] :: splitComma rest
    else
      match splitComma rest with
      | [] => [[c]]
      | t :: ts => (c :: t) :: ts

/-! ## `parseIDs` (msr.go lines 373-407) -/

/-- The three error shapes produced by `parseIDs`: the inverted-range
message, the max-size message, and the wrong-format (Atoi) message. -/
inductive ParseError where
  | rangeInverted (start e : Nat)
  | capacity
  | badToken (tok : List Char)
deriving DecidableEq, Repr

instance {ε α : Type} [DecidableEq ε] [DecidableEq α] : DecidableEq (Except ε α) := fun a b =>
  match a, b with
  | .error e1, .error e2 =>
    if h : e1 = e2 then .isTrue (congrArg Except.error h)
    else .isFalse (fun hh => h (Except.error.inj hh))
  | .ok x, .ok y =>
    if h : x = y then .isTrue (congrArg Except.ok h)
    else .isFalse (fun hh => h (Except.ok.inj hh))
  | .error _, .ok _ => .isFalse (fun hh => Except.noConfusion hh)
  | .ok _, .error _ => .isFalse (fun hh => Except.noConfusion hh)

/-- Structural form of the `for ; start <= end; start++` loop body of
`parseIDs`, recursing on the remaining trip count `e + 1 - start`. -/
def appendRangeLoopN : Nat → List Int → Nat → Except ParseError (List Int)
  | 0, result, _ => .ok result
  | n + 1, result, start =>
    if result.length + 1 > maxIDsSize then .error .capacity
    else appendRangeLoopN n (result ++ [(start : Int)]) (start + 1)

/-- The `for ; start <= end; start++` expansion loop of `parseIDs`,
with its per-append capacity check: the loop runs while `start ≤ e`,
i.e. for `e + 1 - start` iterations (unless it errors first). -/
def appendRangeLoop (result : List Int) (start e : Nat) : Except ParseError (List Int) :=
  appendRangeLoopN (e + 1 - start) result start

/-- Body of the inner token loop of `parseIDs` (the Go rebinding
`id := strings.TrimSpace(id)` is inlined). -/
def parseToken (result : List Int) (id0 : List Char) : Except ParseError (List Int) :=
  match sscanfRange (trimSpace id0) with
  | some (start, e) =>
    if start ≥ e then .error (.rangeInverted start e)
    else appendRangeLoop result start e
  | none =>
    match atoi (trimSpace id0) with
    | none => .error (.badToken (trimSpace id0))
    | some num =>
      if result.length + 1 > maxIDsSize then .error .capacity
      else .ok (result ++ [num])

/-- `parseIDs(allIDsStrings []string) ([]int, error)`. -/
def parseIDs (allIDsStrings : List String) : Except ParseError (List Int) :=
  allIDsStrings.foldlM
    (fun result idsString => (splitComma idsString.toList).foldlM parseToken result) []

/-! ## `removeDuplicateValues` (msr.go lines 409-421) -/

/-- Loop of `removeDuplicateValues`; `keys` models the Go `map[int]bool`
through its membership. -/
def rdvLoop (keys result duplicates : List Int) : List Int → List Int × List Int
  | [] => (result, duplicates)
  | entry :: rest =>
    if entry ∈ keys then rdvLoop keys result (duplicates ++ [entry]) rest
    else rdvLoop (entry :: keys) (result ++ [entry]) duplicates rest

def removeDuplicateValues (intSlice : List Int) : List Int × List Int :=
  rdvLoop [] [] [] intSlice

/-! ## `parseIntRanges` (lines 358-371) and `parseCores` (lines 341-356) -/

/-- `parseIntRanges`: parse, then deduplicate (the duplicate list is only
logged by the source). -/
def parseIntRanges (ranges : List String) : Except ParseError (List Int) :=
  match parseIDs ranges with
  | .error e => .error e
  | .ok ids => .ok (removeDuplicateValues ids).1

/-- `parseCores`: `none` models the Go `nil` slice ("all possible cores
will be configured"), both as input and as result. -/
def parseCores (cores : Option (List String)) : Option (List Int) :=
  match cores with
  | none => none
  | some cs =>
    if cs.length = 0 then none
    else
      match parseIntRanges cs with
      | .error _ => none
      | .ok result => some result

/-! ## The per-core data store (`cpuCoresData map[string]*msrData`) -/

/-- `msrData` (msr.go, struct used by `setCPUCores`): current values are
`uint64` (`Nat` here), the two temperature fields are `int64` (`Int`),
deltas are `uint64`. -/
structure msrData where
  mperf : Nat
  aperf : Nat
  timeStampCounter : Nat
  c3 : Nat
  c6 : Nat
  c7 : Nat
  throttleTemp : Int
  temp : Int
  mperfDelta : Nat
  aperfDelta : Nat
  timeStampCounterDelta : Nat
  c3Delta : Nat
  c6Delta : Nat
  c7Delta : Nat
deriving DecidableEq, Repr

/-- The all-zero `msrData` literal that `setCPUCores` stores for every
selected core (msr.go lines 301-316). -/
def initialMsrData : msrData :=
  { mperf := 0, aperf := 0, timeStampCounter := 0, c3 := 0, c6 := 0, c7 := 0
    throttleTemp := 0, temp := 0
    mperfDelta := 0, aperfDelta := 0, timeStampCounterDelta := 0
    c3Delta := 0, c6Delta := 0, c7Delta := 0 }

/-- The Go map `cpuCoresData map[string]*msrData`, as an association list. -/
abbrev CoreStore := List (String × msrData)

/-- Go map indexing `m.cpuCoresData[core]`: `none` models the `nil`
pointer returned for an absent key. -/
def lookupCore (store : CoreStore) (core : String) : Option msrData :=
  match store.find? (fun p => p.1 == core) with
  | none => none
  | some p => some p.2

/-- In-place mutation of the `*msrData` the map holds for `core`. -/
def updateCore (store : CoreStore) (core : String) (d : msrData) : CoreStore :=
  store.map (fun p => if p.1 == core then (p.1, d) else p)

/-- `uint64` subtraction `new - old` (wraparound modulo `2 ^ 64`). -/
def sub64 (a b : Nat) : Nat := (((a : Int) - (b : Int)) % (2 ^ 64 : Int)).toNat

/-- `msrOffsets`, in the order assigned by `newMsrServiceWithFs`
(msr.go lines 335-337). -/
def msrOffsets : List Int :=
  [c3StateResidencyLocation, c6StateResidencyLocation, c7StateResidencyLocation,
   maximumFrequencyClockCountLocation, actualFrequencyClockCountLocation,
   timestampCounterLocation, throttleTemperatureLocation, temperatureLocation]

/-! ## `readDataFromMsr` / `openAndReadMsr` / `isMsrLoaded`

A reader (`io.ReaderAt` together with `fs.readFileAtOffsetToUint64`) is
modelled as `Int → Option Nat`: `none` at an offset means that the
8-byte read at that offset fails (device error, short read).  The file
open step of `openAndReadMsr` (`checkFile` + `os.Open`) is modelled by
`openMsr : String → Option (Int → Option Nat)`: `none` means the MSR
file for that core is missing or unopenable.

The outcome distinguishes a returned error (which leaves the store as
it was: in the source every assignment to `m.cpuCoresData[core]` comes
after the `g.Wait()` error check) from the runtime panic that the nil
`*msrData` dereference causes when `core` is not a key of the map. -/

inductive ReadOutcome where
  | ok (store : CoreStore)
  | err (store : CoreStore)
  | panic
deriving DecidableEq

/-- The fan-out/fan-in of `readDataFromMsr`: one read per tracked offset,
the eight results collected at the receive points, with `g.Wait()`
surfacing failure (`none`) if any single read failed. -/
def collectReads (reader : Int → Option Nat) :
    Option (Nat × Nat × Nat × Nat × Nat × Nat × Nat × Nat) := do
  let newC3 ← reader c3StateResidencyLocation
  let newC6 ← reader c6StateResidencyLocation
  let newC7 ← reader c7StateResidencyLocation
  let newMperf ← reader maximumFrequencyClockCountLocation
  let newAperf ← reader actualFrequencyClockCountLocation
  let newTsc ← reader timestampCounterLocation
  let newThrottleTemp ← reader throttleTemperatureLocation
  let newTemp ← reader temperatureLocation
  pure (newC3, newC6, newC7, newMperf, newAperf, newTsc, newThrottleTemp, newTemp)

/-- `readDataFromMsr` (msr.go lines 202-260): the eight offset reads are
fanned out and collected; if any read fails, `g.Wait()` surfaces the
error and the function returns it before any field of
`m.cpuCoresData[core]` is assigned.  On success all current/delta
fields are assigned together; if `core` is absent from the map, the
first field assignment dereferences a nil pointer (`panic`). -/
def readDataFromMsr (store : CoreStore) (core : String) (reader : Int → Option Nat) :
    ReadOutcome :=
  match collectReads reader with
  | some (newC3, newC6, newC7, newMperf, newAperf, newTsc, newThrottleTemp, newTemp) =>
    match lookupCore store core with
    | none => .panic
    | some prev =>
      .ok (updateCore store core
        { c3Delta := sub64 newC3 prev.c3
          c6Delta := sub64 newC6 prev.c6
          c7Delta := sub64 newC7 prev.c7
          mperfDelta := sub64 newMperf prev.mperf
          aperfDelta := sub64 newAperf prev.aperf
          timeStampCounterDelta := sub64 newTsc prev.timeStampCounter
          c3 := newC3
          c6 := newC6
          c7 := newC7
          mperf := newMperf
          aperf := newAperf
          timeStampCounter := newTsc
          -- MSR (1A2h) IA32_TEMPERATURE_TARGET bits 23:16.
          throttleTemp := Int.ofNat ((newThrottleTemp >>> 16) &&& 0xFF)
          -- MSR (19Ch) IA32_THERM_STATUS bits 22:16.
          temp := Int.ofNat ((newTemp >>> 16) &&& 0x7F) })
  | none => .err store

/-- `openAndReadMsr` (msr.go lines 143-160): `checkFile`/`os.Open`
failure returns an error; otherwise the read is delegated to
`readDataFromMsr` (the Go wrapping of the error message is dropped). -/
def openAndReadMsr (store : CoreStore) (core : String)
    (openMsr : String → Option (Int → Option Nat)) : ReadOutcome :=
  match openMsr core with
  | none => .err store
  | some reader => readDataFromMsr store core reader

/-- Loop of `isMsrLoaded` over the keys of `cpuCoresData` (a failed
`openAndReadMsr` leaves the store unchanged, so iterating with the
original store is faithful; a successful one returns immediately). -/
def isMsrLoadedLoop (store : CoreStore) (openMsr : String → Option (Int → Option Nat)) :
    List String → Bool
  | [] => false
  | cpuID :: rest =>
    match openAndReadMsr store cpuID openMsr with
    | .ok _ => true
    | _ => isMsrLoadedLoop store openMsr rest

/-- `isMsrLoaded` (msr.go lines 75-83). -/
def isMsrLoaded (store : CoreStore) (openMsr : String → Option (Int → Option Nat)) : Bool :=
  isMsrLoadedLoop store openMsr (store.map Prod.fst)

def ReadOutcome.isOk : ReadOutcome → Bool
  | .ok _ => true
  | _ => false

/-! ## Spec-side views of the token grammar -/

/-- The inclusive expansion `[s, …, e]` of a range token, in increasing
order. -/
def rangeList (s e : Nat) : List Int :=
  (List.range (e + 1 - s)).map (fun i => ((s + i : Nat) : Int))

/-- What a single token contributes when it is well formed: a range
token `a-b` with `a < b` expands to `[a, …, b]`; otherwise an
`Atoi`-parseable integer contributes itself; `none` marks a token the
parser rejects. -/
def tokenExpansion (id0 : List Char) : Option (List Int) :=
  match sscanfRange (trimSpace id0) with
  | some (s, e) => if s < e then some (rangeList s e) else none
  | none => (atoi (trimSpace id0)).map (fun n => [n])

/-- The number of IDs a well-formed token expands to. -/
def tokenCount (id0 : List Char) : Nat :=
  match sscanfRange (trimSpace id0) with
  | some (s, e) => e + 1 - s
  | none => 1

/-- All tokens of a specification list, in processing order. -/
def tokensOf (specs : List String) : List (List Char) :=
  specs.flatMap (fun s => splitComma s.toList)

/-- Total number of IDs a specification list expands to, before
deduplication. -/
def expansionCount (specs : List String) : Nat :=
  ((tokensOf specs).map tokenCount).sum

/-- The full (pre-deduplication) expansion of a specification list. -/
def fullExpansion (specs : List String) : List Int :=
  (tokensOf specs).flatMap (fun t => (tokenExpansion t).getD [])

/-! ## Lemmas about the refresh path -/

lemma collectReads_isSome_iff (reader : Int → Option Nat) :
    (collectReads reader).isSome = true ↔ ∀ off ∈ msrOffsets, (reader off).isSome = true := by
  simp only [msrOffsets, List.mem_cons, List.not_mem_nil, or_false, forall_eq_or_imp, forall_eq]
  unfold collectReads
  cases reader c3StateResidencyLocation with
  | none => simp
  | some v1 =>
    cases reader c6StateResidencyLocation with
    | none => simp
    | some v2 =>
      cases reader c7StateResidencyLocation with
      | none => simp
      | some v3 =>
        cases reader maximumFrequencyClockCountLocation with
        | none => simp
        | some v4 =>
          cases reader actualFrequencyClockCountLocation with
          | none => simp
          | some v5 =>
            cases reader timestampCounterLocation with
            | none => simp
            | some v6 =>
              cases reader throttleTemperatureLocation with
              | none => simp
              | some v7 =>
                cases reader temperatureLocation with
                | none => simp
                | some v8 => simp

lemma collectReads_none_of_fail (reader : Int → Option Nat)
    (h : ∃ off ∈ msrOffsets, reader off = none) : collectReads reader = none := by
  rw [← Option.not_isSome_iff_eq_none]
  intro hs
  obtain ⟨off, hmem, hnone⟩ := h
  have := (collectReads_isSome_iff reader).mp hs off hmem
  rw [hnone] at this
  simp at this

lemma collectReads_eq_some (reader : Int → Option Nat) (v1 v2 v3 v4 v5 v6 v7 v8 : Nat)
    (h1 : reader c3StateResidencyLocation = some v1)
    (h2 : reader c6StateResidencyLocation = some v2)
    (h3 : reader c7StateResidencyLocation = some v3)
    (h4 : reader maximumFrequencyClockCountLocation = some v4)
    (h5 : reader actualFrequencyClockCountLocation = some v5)
    (h6 : reader timestampCounterLocation = some v6)
    (h7 : reader throttleTemperatureLocation = some v7)
    (h8 : reader temperatureLocation = some v8) :
    collectReads reader = some (v1, v2, v3, v4, v5, v6, v7, v8) := by
  simp [collectReads, h1, h2, h3, h4, h5, h6, h7, h8]

/-- On a successful eight-offset snapshot, `readDataFromMsr` commits
exactly this record for `core`. -/
lemma readDataFromMsr_ok (store : CoreStore) (core : String) (reader : Int → Option Nat)
    (prev : msrData) (v1 v2 v3 v4 v5 v6 v7 v8 : Nat)
    (hc : collectReads reader = some (v1, v2, v3, v4, v5, v6, v7, v8))
    (hprev : lookupCore store core = some prev) :
    readDataFromMsr store core reader = .ok (updateCore store core
      { c3Delta := sub64 v1 prev.c3
        c6Delta := sub64 v2 prev.c6
        c7Delta := sub64 v3 prev.c7
        mperfDelta := sub64 v4 prev.mperf
        aperfDelta := sub64 v5 prev.aperf
        timeStampCounterDelta := sub64 v6 prev.timeStampCounter
        c3 := v1
        c6 := v2
        c7 := v3
        mperf := v4
        aperf := v5
        timeStampCounter := v6
        throttleTemp := Int.ofNat ((v7 >>> 16) &&& 0xFF)
        temp := Int.ofNat ((v8 >>> 16) &&& 0x7F) }) := by
  unfold readDataFromMsr
  rw [hc, hprev]

lemma lookupCore_isSome_of_mem (store : CoreStore) (p : String × msrData) (hp : p ∈ store) :
    (lookupCore store p.1).isSome = true := by
  unfold lookupCore
  cases hf : store.find? (fun q => q.1 == p.1) with
  | none =>
    rw [List.find?_eq_none] at hf
    exact absurd (by simp) (hf p hp)
  | some q => simp

lemma openAndReadMsr_isOk_iff (store : CoreStore) (core : String)
    (openMsr : String → Option (Int → Option Nat)) :
    (openAndReadMsr store core openMsr).isOk = true ↔
      (∃ reader, openMsr core = some reader ∧ (collectReads reader).isSome = true) ∧
      (lookupCore store core).isSome = true := by
  unfold openAndReadMsr
  cases h : openMsr core with
  | none => simp [ReadOutcome.isOk]
  | some reader =>
    unfold readDataFromMsr
    cases hc : collectReads reader with
    | none => simp [ReadOutcome.isOk, hc]
    | some t =>
      obtain ⟨a, b, c, d, e2, f, g2, i⟩ := t
      cases hl : lookupCore store core <;> simp [ReadOutcome.isOk, hc, hl]

lemma isMsrLoadedLoop_iff (store : CoreStore) (openMsr : String → Option (Int → Option Nat))
    (keys : List String) :
    isMsrLoadedLoop store openMsr keys = true ↔
      ∃ c ∈ keys, (openAndReadMsr store c openMsr).isOk = true := by
  induction keys with
  | nil => simp [isMsrLoadedLoop]
  | cons c rest ih =>
    unfold isMsrLoadedLoop
    cases h : openAndReadMsr store c openMsr with
    | ok s => simp [h, ReadOutcome.isOk]
    | err s => simp [h, ih, ReadOutcome.isOk]
    | panic => simp [h, ih, ReadOutcome.isOk]

/-! ## Claims C1, C2, C8, C4, C9 -/

/-- **C1.** If any one of the 8 offset reads of a core refresh fails,
`readDataFromMsr` (and hence `openAndReadMsr`) returns an error and the
per-core data store is exactly its pre-call state: no partial register
state is committed. -/
theorem refresh_error_leaves_store_unchanged
    (store : CoreStore) (core : String)
    (openMsr : String → Option (Int → Option Nat)) (reader : Int → Option Nat)
    (hopen : openMsr core = some reader)
    (hfail : ∃ off ∈ msrOffsets, reader off = none) :
    readDataFromMsr store core reader = .err store ∧
    openAndReadMsr store core openMsr = .err store := by
  have h := collectReads_none_of_fail reader hfail
  have hr : readDataFromMsr store core reader = .err store := by
    unfold readDataFromMsr
    rw [h]
  refine ⟨hr, ?_⟩
  unfold openAndReadMsr
  rw [hopen]
  exact hr

theorem refresh_error_leaves_store_unchanged_witness :
    readDataFromMsr [("0", initialMsrData)] "0"
        (fun off => if off = temperatureLocation then none else some 5) =
      .err [("0", initialMsrData)] ∧
    openAndReadMsr [("0", initialMsrData)] "0"
        (fun _ => some (fun off => if off = temperatureLocation then none else some 5)) =
      .err [("0", initialMsrData)] :=
  refresh_error_leaves_store_unchanged [("0", initialMsrData)] "0"
    (fun _ => some (fun off => if off = temperatureLocation then none else some 5))
    (fun off => if off = temperatureLocation then none else some 5) rfl
    ⟨temperatureLocation, by decide, by decide⟩

/-- **C2.** On a successful refresh each of the six counter deltas stored
for the core equals `(new raw − previous stored) mod 2 ^ 64` (unsigned
modular subtraction, never clamped); and when the previous sample is the
all-zero record created at setup, the first delta equals the first raw
reading. -/
theorem counter_deltas_are_modular (store : CoreStore) (core : String)
    (reader : Int → Option Nat) (prev : msrData) (v1 v2 v3 v4 v5 v6 v7 v8 : Nat)
    (h1 : reader c3StateResidencyLocation = some v1)
    (h2 : reader c6StateResidencyLocation = some v2)
    (h3 : reader c7StateResidencyLocation = some v3)
    (h4 : reader maximumFrequencyClockCountLocation = some v4)
    (h5 : reader actualFrequencyClockCountLocation = some v5)
    (h6 : reader timestampCounterLocation = some v6)
    (h7 : reader throttleTemperatureLocation = some v7)
    (h8 : reader temperatureLocation = some v8)
    (hprev : lookupCore store core = some prev) :
    ∃ nd : msrData, readDataFromMsr store core reader = .ok (updateCore store core nd) ∧
      nd.c3Delta = (((v1 : Int) - (prev.c3 : Int)) % 2 ^ 64).toNat ∧
      nd.c6Delta = (((v2 : Int) - (prev.c6 : Int)) % 2 ^ 64).toNat ∧
      nd.c7Delta = (((v3 : Int) - (prev.c7 : Int)) % 2 ^ 64).toNat ∧
      nd.mperfDelta = (((v4 : Int) - (prev.mperf : Int)) % 2 ^ 64).toNat ∧
      nd.aperfDelta = (((v5 : Int) - (prev.aperf : Int)) % 2 ^ 64).toNat ∧
      nd.timeStampCounterDelta =
        (((v6 : Int) - (prev.timeStampCounter : Int)) % 2 ^ 64).toNat ∧
      (prev = initialMsrData →
        v1 < 2 ^ 64 → v2 < 2 ^ 64 → v3 < 2 ^ 64 → v4 < 2 ^ 64 → v5 < 2 ^ 64 → v6 < 2 ^ 64 →
        nd.c3Delta = v1 ∧ nd.c6Delta = v2 ∧ nd.c7Delta = v3 ∧ nd.mperfDelta = v4 ∧
          nd.aperfDelta = v5 ∧ nd.timeStampCounterDelta = v6) := by
  refine ⟨_, readDataFromMsr_ok store core reader prev v1 v2 v3 v4 v5 v6 v7 v8
    (collectReads_eq_some reader v1 v2 v3 v4 v5 v6 v7 v8 h1 h2 h3 h4 h5 h6 h7 h8) hprev,
    rfl, rfl, rfl, rfl, rfl, rfl, ?_⟩
  rintro rfl hv1 hv2 hv3 hv4 hv5 hv6
  simp only [initialMsrData, sub64]
  refine ⟨?_, ?_, ?_, ?_, ?_, ?_⟩ <;> omega

theorem counter_deltas_are_modular_witness :
    ∃ nd : msrData,
      readDataFromMsr
          [("0", { initialMsrData with c3 := 5, c6 := 2 ^ 64 - 1 })] "0"
          (fun off => if off = c3StateResidencyLocation then some 3 else some 7) =
        .ok (updateCore [("0", { initialMsrData with c3 := 5, c6 := 2 ^ 64 - 1 })] "0" nd) ∧
      nd.c3Delta = (((3 : Int) - (5 : Int)) % 2 ^ 64).toNat ∧
      nd.c6Delta = (((7 : Int) - ((2 ^ 64 - 1 : Nat) : Int)) % 2 ^ 64).toNat := by
  obtain ⟨nd, hread, hc3, hc6, -⟩ :=
    counter_deltas_are_modular
      [("0", { initialMsrData with c3 := 5, c6 := 2 ^ 64 - 1 })] "0"
      (fun off => if off = c3StateResidencyLocation then some 3 else some 7)
      { initialMsrData with c3 := 5, c6 := 2 ^ 64 - 1 }
      3 7 7 7 7 7 7 7
      (by decide) (by decide) (by decide) (by decide) (by decide) (by decide) (by decide)
      (by decide) (by simp [lookupCore])
  exact ⟨nd, hread, hc3, hc6⟩

/-- **C8.** On a successful refresh the stored throttle temperature is
bits 23:16 of its raw register value (`(v >>> 16) &&& 0xFF`) and the
stored current temperature is bits 22:16 of its raw value
(`(v >>> 16) &&& 0x7F`); both are pure functions of the new raw values
only (no delta is computed for them). -/
theorem temperature_bitfield_extraction (store : CoreStore) (core : String)
    (reader : Int → Option Nat) (prev : msrData) (v1 v2 v3 v4 v5 v6 v7 v8 : Nat)
    (h1 : reader c3StateResidencyLocation = some v1)
    (h2 : reader c6StateResidencyLocation = some v2)
    (h3 : reader c7StateResidencyLocation = some v3)
    (h4 : reader maximumFrequencyClockCountLocation = some v4)
    (h5 : reader actualFrequencyClockCountLocation = some v5)
    (h6 : reader timestampCounterLocation = some v6)
    (h7 : reader throttleTemperatureLocation = some v7)
    (h8 : reader temperatureLocation = some v8)
    (hprev : lookupCore store core = some prev) :
    ∃ nd : msrData, readDataFromMsr store core reader = .ok (updateCore store core nd) ∧
      nd.throttleTemp = Int.ofNat ((v7 >>> 16) &&& 0xFF) ∧
      nd.temp = Int.ofNat ((v8 >>> 16) &&& 0x7F) :=
  ⟨_, readDataFromMsr_ok store core reader prev v1 v2 v3 v4 v5 v6 v7 v8
    (collectReads_eq_some reader v1 v2 v3 v4 v5 v6 v7 v8 h1 h2 h3 h4 h5 h6 h7 h8) hprev,
    rfl, rfl⟩

theorem temperature_bitfield_extraction_witness :
    ∃ nd : msrData,
      readDataFromMsr [("0", initialMsrData)] "0" (fun _ => some 0x00AB1234) =
        .ok (updateCore [("0", initialMsrData)] "0" nd) ∧
      nd.throttleTemp = 0xAB ∧ nd.temp = 0x2B := by
  obtain ⟨nd, hread, ht, hc⟩ :=
    temperature_bitfield_extraction [("0", initialMsrData)] "0" (fun _ => some 0x00AB1234)
      initialMsrData 0x00AB1234 0x00AB1234 0x00AB1234 0x00AB1234 0x00AB1234 0x00AB1234
      0x00AB1234 0x00AB1234
      rfl rfl rfl rfl rfl rfl rfl rfl (by simp [lookupCore])
  refine ⟨nd, hread, ?_, ?_⟩
  · rw [ht]; decide
  · rw [hc]; decide

/-- **C4** records a divergence between spec and code: refreshing a core
identifier that is not a key of `cpuCoresData`, while its MSR file is
openable and all offset reads succeed, does not return an error — the
source dereferences the nil `*msrData` the map yields for the missing
key and panics.  This theorem evaluates the embedded code at such an
input. -/
theorem refresh_panics_for_unknown_core :
    openAndReadMsr [("0", initialMsrData)] "1" (fun _ => some (fun _ => some 0)) = .panic := by
  decide

/-- **C9.** `isMsrLoaded` returns `true` iff at least one core in the
per-core data store has an MSR source that is openable and whose eight
tracked offset reads all succeed; it returns `false` once all cores (or
an empty store) are exhausted, and reports only a boolean, swallowing
every per-core error. -/
theorem isMsrLoaded_iff_some_core_readable (store : CoreStore)
    (openMsr : String → Option (Int → Option Nat)) :
    isMsrLoaded store openMsr = true ↔
      ∃ p ∈ store, ∃ reader, openMsr p.1 = some reader ∧
        ∀ off ∈ msrOffsets, (reader off).isSome = true := by
  unfold isMsrLoaded
  rw [isMsrLoadedLoop_iff]
  constructor
  · rintro ⟨c, hc, hok⟩
    obtain ⟨p, hp, rfl⟩ := List.mem_map.mp hc
    rw [openAndReadMsr_isOk_iff] at hok
    obtain ⟨⟨reader, hr, hcoll⟩, -⟩ := hok
    exact ⟨p, hp, reader, hr, (collectReads_isSome_iff reader).mp hcoll⟩
  · rintro ⟨p, hp, reader, hr, hall⟩
    refine ⟨p.1, List.mem_map_of_mem _ hp, ?_⟩
    rw [openAndReadMsr_isOk_iff]
    exact ⟨⟨reader, hr, (collectReads_isSome_iff reader).mpr hall⟩,
      lookupCore_isSome_of_mem store p hp⟩

/-! ## Lemmas about the range-expansion loop -/

lemma appendRangeLoopN_ok : ∀ (n : Nat) (result : List Int) (start : Nat),
    result.length + n ≤ maxIDsSize →
    appendRangeLoopN n result start =
      .ok (result ++ (List.range n).map (fun i => ((start + i : Nat) : Int))) := by
  intro n
  induction n with
  | zero => intro result start _; simp [appendRangeLoopN]
  | succ n ih =>
    intro result start h
    unfold appendRangeLoopN
    rw [if_neg (by omega)]
    rw [ih (result ++ [(start : Int)]) (start + 1) (by rw [List.length_append]; simp; omega)]
    congr 1
    rw [List.append_assoc]
    congr 1
    rw [List.range_succ_eq_map]
    simp only [List.map_cons, List.map_map, Nat.add_zero, List.singleton_append]
    congr 1
    apply List.map_congr_left
    intro i _
    simp only [Function.comp_apply]
    congr 1
    omega

lemma appendRangeLoopN_capacity : ∀ (n : Nat) (result : List Int) (start : Nat),
    result.length ≤ maxIDsSize → maxIDsSize < result.length + n →
    appendRangeLoopN n result start = .error .capacity := by
  intro n
  induction n with
  | zero => intro result start h1 h2; exact absurd h2 (by omega)
  | succ n ih =>
    intro result start h1 h2
    unfold appendRangeLoopN
    by_cases hc : result.length + 1 > maxIDsSize
    · rw [if_pos hc]
    · rw [if_neg hc]
      exact ih _ (start + 1) (by rw [List.length_append]; simp; omega)
        (by rw [List.length_append]; simp; omega)

lemma appendRangeLoopN_ok_length : ∀ (n : Nat) (result : List Int) (start : Nat) (r : List Int),
    result.length ≤ maxIDsSize → appendRangeLoopN n result start = .ok r →
    r.length ≤ maxIDsSize := by
  intro n
  induction n with
  | zero =>
    intro result start r h1 h2
    unfold appendRangeLoopN at h2
    injection h2 with h2
    subst h2
    exact h1
  | succ n ih =>
    intro result start r h1 h2
    unfold appendRangeLoopN at h2
    by_cases hc : result.length + 1 > maxIDsSize
    · rw [if_pos hc] at h2; cases h2
    · rw [if_neg hc] at h2
      exact ih _ (start + 1) r (by rw [List.length_append]; simp; omega) h2

/-! ## Lemmas about `parseToken` -/

lemma tokenExpansion_length (id : List Char) (l : List Int)
    (h : tokenExpansion id = some l) : l.length = tokenCount id := by
  unfold tokenExpansion at h
  unfold tokenCount
  cases hs : sscanfRange (trimSpace id) with
  | some p =>
    obtain ⟨s, e⟩ := p
    rw [hs] at h
    simp only [] at h ⊢
    by_cases hlt : s < e
    · rw [if_pos hlt] at h
      injection h with h
      subst h
      simp [rangeList]
    · rw [if_neg hlt] at h; cases h
  | none =>
    rw [hs] at h
    try simp only [] at h
    try simp only []
    cases ha : atoi (trimSpace id) with
    | none => rw [ha] at h; cases h
    | some num =>
      rw [ha] at h
      simp only [Option.map] at h
      injection h with h
      subst h
      rfl

lemma parseToken_expansion (result : List Int) (id : List Char) (l : List Int)
    (hexp : tokenExpansion id = some l) (hlen : result.length ≤ maxIDsSize) :
    parseToken result id =
      if result.length + l.length ≤ maxIDsSize then .ok (result ++ l)
      else .error .capacity := by
  unfold parseToken
  unfold tokenExpansion at hexp
  cases hs : sscanfRange (trimSpace id) with
  | some p =>
    obtain ⟨s, e⟩ := p
    rw [hs] at hexp
    simp only [] at hexp ⊢
    by_cases hlt : s < e
    · rw [if_pos hlt] at hexp
      injection hexp with hl
      subst hl
      rw [if_neg (by omega : ¬ s ≥ e)]
      unfold appendRangeLoop
      have hrl : (rangeList s e).length = e + 1 - s := by simp [rangeList]
      by_cases hcap : result.length + (rangeList s e).length ≤ maxIDsSize
      · rw [if_pos hcap]
        rw [appendRangeLoopN_ok _ _ _ (by omega)]
        rfl
      · rw [if_neg hcap]
        exact appendRangeLoopN_capacity _ _ _ hlen (by omega)
    · rw [if_neg hlt] at hexp; cases hexp
  | none =>
    rw [hs] at hexp
    simp only [] at hexp ⊢
    cases ha : atoi (trimSpace id) with
    | none => rw [ha] at hexp; cases hexp
    | some num =>
      rw [ha] at hexp
      simp only [Option.map] at hexp
      injection hexp with hl
      subst hl
      simp only [List.length_singleton]
      by_cases hcap : result.length + 1 ≤ maxIDsSize
      · rw [if_pos hcap, if_neg (by omega)]
      · rw [if_neg hcap, if_pos (by omega)]

lemma parseToken_rangeInverted (result : List Int) (id : List Char) (s e : Nat)
    (hs : sscanfRange (trimSpace id) = some (s, e)) (hse : e ≤ s) :
    parseToken result id = .error (.rangeInverted s e) := by
  unfold parseToken
  rw [hs]
  simp only []
  rw [if_pos (by omega : s ≥ e)]

lemma parseToken_badToken (result : List Int) (id : List Char)
    (hs : sscanfRange (trimSpace id) = none) (ha : atoi (trimSpace id) = none) :
    parseToken result id = .error (.badToken (trimSpace id)) := by
  unfold parseToken
  rw [hs]
  simp only []
  rw [ha]

lemma parseToken_ok_length (result : List Int) (id : List Char) (r : List Int)
    (hlen : result.length ≤ maxIDsSize) (h : parseToken result id = .ok r) :
    r.length ≤ maxIDsSize := by
  unfold parseToken at h
  cases hs : sscanfRange (trimSpace id) with
  | some p =>
    obtain ⟨s, e⟩ := p
    rw [hs] at h
    simp only [] at h
    by_cases hse : s ≥ e
    · rw [if_pos hse] at h; cases h
    · rw [if_neg hse] at h
      exact appendRangeLoopN_ok_length _ _ _ r hlen h
  | none =>
    rw [hs] at h
    simp only [] at h
    cases ha : atoi (trimSpace id) with
    | none => rw [ha] at h; simp only [] at h; cases h
    | some num =>
      rw [ha] at h
      simp only [] at h
      by_cases hc : result.length + 1 > maxIDsSize
      · rw [if_pos hc] at h; cases h
      · rw [if_neg hc] at h
        injection h with h
        subst h
        rw [List.length_append]
        simp only [List.length_singleton]
        omega

/-! ## Lemmas about the token fold underlying `parseIDs` -/

lemma foldlM_parseToken_append (ts us : List (List Char)) (init : List Int) :
    List.foldlM parseToken init (ts ++ us) =
      match List.foldlM parseToken init ts with
      | .error e => .error e
      | .ok r => List.foldlM parseToken r us := by
  rw [List.foldlM_append]
  cases List.foldlM parseToken init ts <;> rfl

lemma parseIDs_eq_foldlM_tokens (specs : List String) :
    parseIDs specs = List.foldlM parseToken [] (tokensOf specs) := by
  unfold parseIDs tokensOf
  generalize ([] : List Int) = init
  induction specs generalizing init with
  | nil => rfl
  | cons s specs ih =>
    rw [List.flatMap_cons, foldlM_parseToken_append, List.foldlM_cons]
    cases h : List.foldlM parseToken init (splitComma s.toList) with
    | error e => rfl
    | ok r => exact ih r

lemma foldlM_parseToken_ok_length (ts : List (List Char)) : ∀ (init r : List Int),
    init.length ≤ maxIDsSize → List.foldlM parseToken init ts = .ok r →
    r.length ≤ maxIDsSize := by
  induction ts with
  | nil =>
    intro init r h1 h2
    injection h2 with h2
    subst h2
    exact h1
  | cons t ts ih =>
    intro init r h1 h2
    rw [List.foldlM_cons] at h2
    cases h : parseToken init t with
    | error e => rw [h] at h2; cases h2
    | ok r1 =>
      rw [h] at h2
      exact ih r1 r (parseToken_ok_length init t r1 h1 h) h2

/-- Appending one comma-free spec string to an already successful parse
runs `parseToken` on it from the accumulated result. -/
lemma parseIDs_append_single (specs : List String) (t : String) (res : List Int)
    (hsingle : splitComma t.toList = [t.toList]) (hok : parseIDs specs = .ok res) :
    parseIDs (specs ++ [t]) = parseToken res t.toList := by
  rw [parseIDs_eq_foldlM_tokens] at hok ⊢
  unfold tokensOf at hok ⊢
  rw [List.flatMap_append, foldlM_parseToken_append, hok]
  simp only [List.flatMap_cons, List.flatMap_nil, List.append_nil, hsingle]
  rw [List.foldlM_cons]
  cases parseToken res t.toList <;> rfl

lemma foldlM_parseToken_expansion (ts : List (List Char)) : ∀ init : List Int,
    (∀ t ∈ ts, (tokenExpansion t).isSome = true) → init.length ≤ maxIDsSize →
    (init.length + (ts.map tokenCount).sum ≤ maxIDsSize →
      List.foldlM parseToken init ts =
        .ok (init ++ ts.flatMap (fun t => (tokenExpansion t).getD []))) ∧
    (maxIDsSize < init.length + (ts.map tokenCount).sum →
      List.foldlM parseToken init ts = .error .capacity) := by
  induction ts with
  | nil =>
    intro init _ hlen
    exact ⟨fun _ => by rw [List.flatMap_nil, List.append_nil]; rfl,
      fun h => absurd h (by simp; omega)⟩
  | cons t ts ih =>
    intro init hwf hlen
    obtain ⟨l, hexp⟩ := Option.isSome_iff_exists.mp (hwf t (by simp))
    have hl : l.length = tokenCount t := tokenExpansion_length t l hexp
    have hpt := parseToken_expansion init t l hexp hlen
    constructor
    · intro hcap
      simp only [List.map_cons, List.sum_cons] at hcap
      have hc1 : init.length + l.length ≤ maxIDsSize := by omega
      rw [List.foldlM_cons, hpt, if_pos hc1]
      have hrec := (ih (init ++ l) (fun t' ht' => hwf t' (List.mem_cons_of_mem _ ht'))
        (by rw [List.length_append]; omega)).1
        (by rw [List.length_append]; omega)
      show List.foldlM parseToken (init ++ l) ts = _
      rw [hrec, List.flatMap_cons, hexp]
      simp [List.append_assoc]
    · intro hcap
      simp only [List.map_cons, List.sum_cons] at hcap
      rw [List.foldlM_cons, hpt]
      by_cases hc1 : init.length + l.length ≤ maxIDsSize
      · rw [if_pos hc1]
        show List.foldlM parseToken (init ++ l) ts = _
        exact (ih (init ++ l) (fun t' ht' => hwf t' (List.mem_cons_of_mem _ ht'))
          (by rw [List.length_append]; omega)).2
          (by rw [List.length_append]; omega)
      · rw [if_neg hc1]
        rfl

/-! ## Lemmas about `removeDuplicateValues` -/

lemma eraseDupsLoop_cons_mem (x : Int) (l r : List Int) (h : x ∈ r) :
    List.eraseDups.loop (x :: l) r = List.eraseDups.loop l r := by
  have hb : List.elem x r = true := List.elem_iff.mpr h
  conv_lhs => unfold List.eraseDups.loop
  rw [hb]

lemma eraseDupsLoop_cons_not_mem (x : Int) (l r : List Int) (h : ¬ x ∈ r) :
    List.eraseDups.loop (x :: l) r = List.eraseDups.loop l (x :: r) := by
  have hb : List.elem x r = false := by
    rw [← Bool.not_eq_true]
    exact fun hc => h (List.elem_iff.mp hc)
  conv_lhs => unfold List.eraseDups.loop
  rw [hb]

/-- The loop of `removeDuplicateValues` computes `List.eraseDups` in its
first component: the `keys` set and the accumulated `result` coincide
(`result = keys.reverse`). -/
lemma rdvLoop_fst_eraseDups : ∀ (xs keys d : List Int),
    (rdvLoop keys keys.reverse d xs).1 = List.eraseDups.loop xs keys := by
  intro xs
  induction xs with
  | nil => intro keys d; rfl
  | cons x xs ih =>
    intro keys d
    unfold rdvLoop
    by_cases hx : x ∈ keys
    · rw [if_pos hx, eraseDupsLoop_cons_mem x xs keys hx]
      exact ih keys (d ++ [x])
    · rw [if_neg hx, eraseDupsLoop_cons_not_mem x xs keys hx]
      have hrev : keys.reverse ++ [x] = (x :: keys).reverse := by simp
      rw [hrev]
      exact ih (x :: keys) d

/-- Nothing is lost or invented: result plus duplicates is a permutation
of what the loop consumed. -/
lemma rdvLoop_perm : ∀ (xs keys r d : List Int),
    ((rdvLoop keys r d xs).1 ++ (rdvLoop keys r d xs).2).Perm (r ++ d ++ xs) := by
  intro xs
  induction xs with
  | nil => intro keys r d; simp [rdvLoop]
  | cons x xs ih =>
    intro keys r d
    unfold rdvLoop
    by_cases hx : x ∈ keys
    · rw [if_pos hx]
      refine (ih keys r (d ++ [x])).trans ?_
      have h1 : r ++ (d ++ [x]) ++ xs = r ++ d ++ (x :: xs) := by
        simp [List.append_assoc]
      rw [h1]
    · rw [if_neg hx]
      refine (ih (x :: keys) (r ++ [x]) d).trans ?_
      have h1 : r ++ [x] ++ d ++ xs = r ++ (x :: (d ++ xs)) := by
        simp [List.append_assoc]
      have h2 : r ++ d ++ (x :: xs) = r ++ (d ++ (x :: xs)) := by
        simp [List.append_assoc]
      rw [h1, h2]
      exact List.Perm.append_left r List.perm_middle.symm

lemma removeDuplicateValues_fst (l : List Int) :
    (removeDuplicateValues l).1 = l.eraseDups :=
  rdvLoop_fst_eraseDups l [] []

lemma removeDuplicateValues_perm (l : List Int) :
    ((removeDuplicateValues l).1 ++ (removeDuplicateValues l).2).Perm l := by
  simpa using rdvLoop_perm l [] [] []

/-! ## Claims C3, C5, C10, C6, C7 -/

/-- **C3.** For a range token `a-b`: if `a < b` (and the expansion fits
under the capacity ceiling) the parse succeeds and appends every integer
of `[a, b]` inclusive, in increasing order, after the IDs of the earlier
spec strings (order of first encounter); if `a = b` or `a > b`, the
whole parse fails with the inverted-range format error and returns no
result. -/
theorem range_token_semantics (specs : List String) (t : String) (s e : Nat) (res : List Int)
    (hsingle : splitComma t.toList = [t.toList])
    (hscan : sscanfRange (trimSpace t.toList) = some (s, e))
    (hok : parseIDs specs = .ok res) :
    (s < e → res.length + (e + 1 - s) ≤ maxIDsSize →
      parseIDs (specs ++ [t]) = .ok (res ++ rangeList s e)) ∧
    (e ≤ s → parseIDs (specs ++ [t]) = .error (.rangeInverted s e)) := by
  have hres : res.length ≤ maxIDsSize := by
    rw [parseIDs_eq_foldlM_tokens] at hok
    exact foldlM_parseToken_ok_length (tokensOf specs) [] res (by simp) hok
  have happ := parseIDs_append_single specs t res hsingle hok
  constructor
  · intro hlt hcap
    have hexp : tokenExpansion t.toList = some (rangeList s e) := by
      unfold tokenExpansion
      rw [hscan]
      simp only []
      rw [if_pos hlt]
    rw [happ, parseToken_expansion res t.toList (rangeList s e) hexp hres,
      if_pos (by simp only [rangeList, List.length_map, List.length_range]; omega)]
  · intro hle
    rw [happ]
    exact parseToken_rangeInverted res t.toList s e hscan hle

theorem range_token_semantics_witness :
    parseIDs ["1", "4-6"] = .ok ([1] ++ rangeList 4 6) ∧
    parseIDs ["1", "9-3"] = .error (.rangeInverted 9 3) :=
  ⟨(range_token_semantics ["1"] "4-6" 4 6 [1] (by decide) (by decide) (by decide)).1
      (by decide) (by decide),
   (range_token_semantics ["1"] "9-3" 9 3 [1] (by decide) (by decide) (by decide)).2
      (by decide)⟩

/-- **C5.** For a specification list all of whose tokens are well
formed, a total (pre-deduplication) expansion of more than
`maxIDsSize = 8192` IDs fails with the capacity error and yields no
partial result, while a total expansion of at most 8192 (in particular
exactly 8192) IDs parses successfully to the full expansion. -/
theorem id_capacity_ceiling (specs : List String)
    (hwf : ∀ t ∈ tokensOf specs, (tokenExpansion t).isSome = true) :
    (expansionCount specs ≤ maxIDsSize → parseIDs specs = .ok (fullExpansion specs)) ∧
    (maxIDsSize < expansionCount specs → parseIDs specs = .error .capacity) := by
  have h := foldlM_parseToken_expansion (tokensOf specs) [] hwf (by simp)
  rw [parseIDs_eq_foldlM_tokens]
  unfold expansionCount at *
  unfold fullExpansion
  constructor
  · intro hcap
    rw [h.1 (by simpa using hcap)]
    simp
  · intro hcap
    exact h.2 (by simpa using hcap)

theorem id_capacity_ceiling_witness :
    parseIDs ["0-8191"] = .ok (fullExpansion ["0-8191"]) ∧
    parseIDs ["0-8192"] = .error .capacity :=
  ⟨(id_capacity_ceiling ["0-8191"] (by decide)).1 (by decide),
   (id_capacity_ceiling ["0-8192"] (by decide)).2 (by decide)⟩

/-- **C10 (counterexample).** The single token `"-3"` is not a
non-negative integer, yet the parse is accepted with value `-3` instead
of failing with a format error: `strconv.Atoi` admits a leading sign. -/
theorem negative_single_token_accepted :
    parseIDs ["-3"] = .ok [-3] ∧ (-3 : Int) < 0 :=
  ⟨by decide, by decide⟩

/-- **C10 (amended).** Every single (non-range) token accepted by the
parser is an integer in `strconv.Atoi` syntax — an optional sign
followed by decimal digits, hence possibly negative; a single token
`Atoi` rejects fails the whole parse with a format error identifying
the (trimmed) offending token. -/
theorem single_token_atoi_semantics (specs : List String) (t : String) (res : List Int)
    (hsingle : splitComma t.toList = [t.toList])
    (hscan : sscanfRange (trimSpace t.toList) = none)
    (hok : parseIDs specs = .ok res) :
    (∀ num : Int, atoi (trimSpace t.toList) = some num → res.length + 1 ≤ maxIDsSize →
      parseIDs (specs ++ [t]) = .ok (res ++ [num])) ∧
    (atoi (trimSpace t.toList) = none →
      parseIDs (specs ++ [t]) = .error (.badToken (trimSpace t.toList))) := by
  have hres : res.length ≤ maxIDsSize := by
    rw [parseIDs_eq_foldlM_tokens] at hok
    exact foldlM_parseToken_ok_length (tokensOf specs) [] res (by simp) hok
  have happ := parseIDs_append_single specs t res hsingle hok
  constructor
  · intro num ha hcap
    have hexp : tokenExpansion t.toList = some [num] := by
      unfold tokenExpansion
      rw [hscan]
      simp only []
      rw [ha]
      rfl
    rw [happ, parseToken_expansion res t.toList [num] hexp hres,
      if_pos (by simp only [List.length_singleton]; omega)]
  · intro ha
    rw [happ]
    exact parseToken_badToken res t.toList hscan ha

theorem single_token_atoi_semantics_witness :
    parseIDs ["7", "-3"] = .ok ([7] ++ [-3]) ∧
    parseIDs ["7", "abc"] = .error (.badToken (trimSpace "abc".toList)) :=
  ⟨(single_token_atoi_semantics ["7"] "-3" [7] (by decide) (by decide) (by decide)).1
      (-3) (by decide) (by decide),
   (single_token_atoi_semantics ["7"] "abc" [7] (by decide) (by decide) (by decide)).2
      (by decide)⟩

/-- **C6.** `removeDuplicateValues` returns the distinct integers in the
order first encountered (`List.eraseDups`) together with the dropped
duplicate occurrences (duplicates are dropped, not errors: result plus
duplicates is a permutation of the input); in particular
`["0,1,2", "1,3"]` parses to `[0,1,2,3]` with duplicate list `[1]`. -/
theorem duplicates_dropped_not_errors :
    (∀ l : List Int, (removeDuplicateValues l).1 = l.eraseDups ∧
      ((removeDuplicateValues l).1 ++ (removeDuplicateValues l).2).Perm l) ∧
    parseIDs ["0,1,2", "1,3"] = .ok [0, 1, 2, 1, 3] ∧
    removeDuplicateValues [0, 1, 2, 1, 3] = ([0, 1, 2, 3], [1]) ∧
    parseIntRanges ["0,1,2", "1,3"] = .ok [0, 1, 2, 3] :=
  ⟨fun l => ⟨removeDuplicateValues_fst l, removeDuplicateValues_perm l⟩,
   by decide, by decide, by decide⟩

/-- **C7.** `parseCores` never propagates a parsing failure: a `nil`
specification, an empty specification list, and any list on which the
parse errors all yield the "all possible cores will be configured"
value (`none`); only a successful parse of a non-empty list yields the
parsed ID list. -/
theorem parseCores_never_propagates :
    parseCores none = none ∧
    parseCores (some []) = none ∧
    (∀ cs e, parseIntRanges cs = .error e → parseCores (some cs) = none) ∧
    (∀ cs r, cs ≠ [] → parseIntRanges cs = .ok r → parseCores (some cs) = some r) := by
  refine ⟨rfl, rfl, ?_, ?_⟩
  · intro cs e h
    cases cs with
    | nil => rfl
    | cons c cs' =>
      unfold parseCores
      simp only []
      rw [if_neg (by simp : ¬ (c :: cs').length = 0), h]
  · intro cs r hne h
    cases cs with
    | nil => exact absurd rfl hne
    | cons c cs' =>
      unfold parseCores
      simp only []
      rw [if_neg (by simp : ¬ (c :: cs').length = 0), h]

theorem parseCores_never_propagates_witness :
    parseCores (some ["1,abc"]) = none ∧
    parseCores (some ["2,4-6"]) = some [2, 4, 5, 6] :=
  ⟨parseCores_never_propagates.2.2.1 ["1,abc"] (.badToken "abc".toList) (by decide),
   parseCores_never_propagates.2.2.2 ["2,4-6"] [2, 4, 5, 6] (by decide) (by decide)⟩


end IntelPowerstat
